import Mathlib

/-!
Verification of the AGI (Asterisk Gateway Interface) client library.

The development shallowly embeds the core of `agi.go` (current revision):
the response grammar `responseRegex`, the `Command` exchange, the preamble
reader inside `NewWithEAGI`, and the `Listen` dispatcher skeleton.  Byte
streams are modelled as the list of text lines a `bufio.Scanner` would
deliver; network binding and accepting are modelled as explicit outcome
values passed to the `Listen` model.
-/

namespace AGI

/-! ### Character classes (RE2 classes used by `responseRegex`, Go `unicode.IsSpace`) -/

/-- RE2 class `\d`, i.e. the ASCII digits. -/
def isDigitC (c : Char) : Bool := 48 ≤ c.toNat && c.toNat ≤ 57

/-- RE2 POSIX class `[:alnum:]`, i.e. ASCII digits and letters. -/
def isAlnumC (c : Char) : Bool :=
  isDigitC c || (65 ≤ c.toNat && c.toNat ≤ 90) || (97 ≤ c.toNat && c.toNat ≤ 122)

/-- RE2 class `\s`: tab, newline, form feed, carriage return, space. -/
def reSpace (c : Char) : Bool :=
  c.toNat = 32 || c.toNat = 9 || c.toNat = 10 || c.toNat = 12 || c.toNat = 13

/-- Go `unicode.IsSpace`, as used by `strings.TrimSpace`. -/
def goIsSpace (c : Char) : Bool :=
  (9 ≤ c.toNat && c.toNat ≤ 13) || c.toNat = 32 || c.toNat = 133 || c.toNat = 160 ||
  c.toNat = 5760 || (8192 ≤ c.toNat && c.toNat ≤ 8202) || c.toNat = 8232 ||
  c.toNat = 8233 || c.toNat = 8239 || c.toNat = 8287 || c.toNat = 12288

/-- True when the character list contains a newline (RE2 `.` excludes it). -/
def hasNL (l : List Char) : Bool := l.any (fun c => c.toNat = 10)

/-! ### Go string helpers used by `Command` and `NewWithEAGI` -/

/-- Go `strings.HasPrefix s pre`. -/
def goStartsWith (s pre : String) : Bool := pre.data.isPrefixOf s.data

/-- Left part of Go `strings.TrimSpace`. -/
def trimLeftL (l : List Char) : List Char := l.dropWhile goIsSpace

/-- Right part of Go `strings.TrimSpace`. -/
def trimRightL (l : List Char) : List Char := (l.reverse.dropWhile goIsSpace).reverse

/-- Go `strings.TrimSpace`. -/
def goTrimSpace (s : String) : String := ⟨trimRightL (trimLeftL s.data)⟩

/-- Go `strings.TrimPrefix s pre`: removes one leading occurrence if present. -/
def goTrimPre (s pre : String) : String :=
  if pre.data.isPrefixOf s.data then ⟨s.data.drop pre.data.length⟩ else s

/-- Go `strings.TrimSuffix s suf`: removes one trailing occurrence if present. -/
def goTrimSuffix (s suf : String) : String :=
  if suf.data.isSuffixOf s.data then ⟨s.data.take (s.data.length - suf.data.length)⟩ else s

/-- Go `strings.SplitN s sep 2`: split at the first separator only. -/
def goSplitN2 (s : String) (sep : Char) : List String :=
  match s.data.dropWhile (fun c => c != sep) with
  | [] => [⟨s.data.takeWhile (fun c => c != sep)⟩]
  | _ :: tl => [⟨s.data.takeWhile (fun c => c != sep)⟩, ⟨tl⟩]

/-! ### Go `strconv.Atoi` -/

/-- Decimal value of a digit string (most significant first). -/
def digitsToNat (l : List Char) : Nat := l.foldl (fun a c => 10 * a + (c.toNat - 48)) 0

/-- Digit-run parser underlying `strconv.Atoi`: fails on an empty run or a
non-digit character. -/
def parseDigits (l : List Char) : Option Nat :=
  if l ≠ [] ∧ l.all isDigitC = true then some (digitsToNat l) else none

def int64Max : Int := 9223372036854775807

def int64Min : Int := -9223372036854775808

/-- Go `strconv.Atoi` on a 64-bit platform: returns the parsed value and a
success flag; a syntax error yields `(0, false)`, an out-of-range value is
clamped to the `int64` bound with a range error. -/
def goAtoi (s : String) : Int × Bool :=
  match s.data with
  | [] => (0, false)
  | c :: tl =>
    let ds := if c = '-' ∨ c = '+' then tl else c :: tl
    match parseDigits ds with
    | none => (0, false)
    | some n =>
      let v : Int := if c = '-' then -(n : Int) else (n : Int)
      if v < int64Min then (int64Min, false)
      else if int64Max < v then (int64Max, false)
      else (v, true)

/-! ### The response grammar `responseRegex`

`^([\d]{3})\sresult=(\-?[[:alnum:]]*)(\s.*)?$` matched against one line.
The match is decomposed exactly as RE2 resolves it: three digits, one
`\s` character, the literal `result=`, then the greedy result token
(an optional minus sign followed by the maximal alphanumeric run), and
finally the optional trailing group which must start with `\s` and may
not contain a newline (RE2 `.`). -/

def resultLit : List Char := ['r', 'e', 's', 'u', 'l', 't', '=']

/-- Greedy split after `result=`: the submatch of group 2 and the remainder. -/
def tokenSplit (l : List Char) : List Char × List Char :=
  match l with
  | [] => ([], [])
  | c :: tl =>
    if c = '-' then (c :: tl.takeWhile isAlnumC, tl.dropWhile isAlnumC)
    else ((c :: tl).takeWhile isAlnumC, (c :: tl).dropWhile isAlnumC)

/-- Match of the optional trailing group `(\s.*)?$` against the remainder. -/
def matchTail (st tok rest3 : List Char) : Option (List Char × List Char × List Char) :=
  match rest3 with
  | [] => some (st, tok, [])
  | c :: tl =>
    if reSpace c = true ∧ hasNL tl = false then some (st, tok, c :: tl) else none

/-- Match from just after the literal `result=`. -/
def matchToken (st rest2 : List Char) : Option (List Char × List Char × List Char) :=
  matchTail st (tokenSplit rest2).1 (tokenSplit rest2).2

/-- Match from just after the `\s` following the status digits. -/
def matchAfter (st rest : List Char) : Option (List Char × List Char × List Char) :=
  if resultLit.isPrefixOf rest then matchToken st (rest.drop 7) else none

/-- Full-line match of `responseRegex`, on the character list. -/
def responseMatchL (l : List Char) : Option (List Char × List Char × List Char) :=
  match l with
  | d1 :: d2 :: d3 :: sp :: rest =>
    if (isDigitC d1 && isDigitC d2 && isDigitC d3 && reSpace sp) = true then
      matchAfter [d1, d2, d3] rest
    else none
  | _ => none

/-- Go `responseRegex.FindStringSubmatch raw`, returning the three submatches
(an unmatched optional group is reported as the empty string). -/
def responseMatch (raw : String) : Option (String × String × String) :=
  match responseMatchL raw.data with
  | none => none
  | some (p1, p2, p3) => some (⟨p1⟩, ⟨p2⟩, ⟨p3⟩)

/-! ### The `Command` exchange -/

/-- Outcome errors a `Command` call can attach to its `Response`, mirroring the
error values constructed in `Command`. -/
inductive CmdError where
  /-- `ErrHangup` -/
  | hangup
  /-- wrap of a transport write failure -/
  | writeFailed (msg : String)
  /-- wrap of a status-code `Atoi` failure -/
  | statusParseFailed
  /-- `failed to parse result: <raw>` -/
  | parseFailed (raw : String)
  /-- `failed to parse result-code as an integer` -/
  | resultParseFailed
  /-- `Non-200 status code` -/
  | non200
deriving DecidableEq

/-- The `Response` structure of `agi.go` (the Go `error` field is modelled by
`Option CmdError`). -/
structure Response where
  error : Option CmdError
  status : Int
  result : Int
  resultString : String
  value : String
deriving DecidableEq

/-- The Go zero value of `Response`, as allocated at the top of `Command`. -/
def Response.empty : Response :=
  { error := none, status := 0, result := 0, resultString := "", value := "" }

/-- The final status check of `Command`: any non-200 status overwrites the
error with the generic status error. -/
def finalize (r : Response) : Response :=
  if r.status ≠ 200 then { r with error := some CmdError.non200 } else r

/-- The read-and-parse phase of `Command` over the lines available on the
session's input stream.  Mirrors the scanner loop of `Command`: reaching
end-of-stream or an empty line breaks out to the status check; a line with
the `HANGUP` prefix returns `ErrHangup`; an unmatched line returns the
parse error; otherwise the fields are populated from the submatches and the
status check runs. -/
def commandRead (input : List String) : Response :=
  match input with
  | [] => finalize Response.empty
  | raw :: _ =>
    if raw = "" then finalize Response.empty
    else if goStartsWith raw "HANGUP" = true then
      { Response.empty with error := some CmdError.hangup }
    else
      match responseMatch raw with
      | none => { Response.empty with error := some (CmdError.parseFailed raw) }
      | some (p1, p2, p3) =>
        if (goAtoi p1).2 = false then
          { Response.empty with status := (goAtoi p1).1, error := some CmdError.statusParseFailed }
        else
          finalize
            { error := if (goAtoi p2).2 then none else some CmdError.resultParseFailed,
              status := (goAtoi p1).1,
              result := (goAtoi p2).1,
              resultString := p2,
              value := goTrimSuffix (goTrimPre (goTrimSpace p3) "(") ")" }

/-- The `Command` exchange: the outcome of the write phase followed by the
read-and-parse phase on the input lines. -/
def Command (writeResult : Except String Unit) (input : List String) : Response :=
  match writeResult with
  | Except.error e => { Response.empty with error := some (CmdError.writeFailed e) }
  | Except.ok _ => commandRead input

/-! ### The preamble reader of `NewWithEAGI` -/

/-- The `Variables` map of a session, modelled extensionally. -/
def VarMap : Type := String → Option String

/-- The empty map allocated by `NewWithEAGI`. -/
def emptyVars : VarMap := fun _ => none

/-- Go map assignment `m[k] = v` (a later duplicate key overwrites). -/
def mapSet (m : VarMap) (k v : String) : VarMap :=
  fun x => if x = k then some v else m x

/-- One iteration of the preamble loop body on a non-empty line:
`strings.SplitN(line, ":", 2)` must give exactly two parts, which are
whitespace-trimmed and stored. -/
def preambleStep (vars : VarMap) (line : String) : VarMap :=
  match goSplitN2 line ':' with
  | [k, v] => mapSet vars (goTrimSpace k) (goTrimSpace v)
  | _ => vars

/-- The preamble scanner loop of `NewWithEAGI`: reads lines until the first
empty line or end-of-stream. -/
def readPreamble : List String → VarMap → VarMap
  | [], vars => vars
  | line :: rest, vars =>
    if line = "" then vars else readPreamble rest (preambleStep vars line)

/-- `NewWithEAGI` restricted to its observable effect on `Variables`:
the preamble parsed from the initial lines of the input stream. -/
def NewWithEAGI (input : List String) : VarMap := readPreamble input emptyVars

/-! ### The `Listen` dispatcher -/

/-- The errors `Listen` can return: a wrapped bind failure or a wrapped
accept failure. -/
inductive ListenErr where
  | bindFailed (msg : String)
  | acceptFailed (msg : String)
deriving DecidableEq

/-- The address actually bound: `localhost:4573` when none is supplied. -/
def effectiveAddr (addr : String) : String :=
  if addr = "" then "localhost:4573" else addr

/-- The accept loop of `Listen` over a trace of accept outcomes: each
successful accept dispatches a handler and the loop continues; the first
accept failure is returned.  `none` means the loop is still running after
the trace. -/
def acceptLoop : List (Except String Unit) → Option ListenErr
  | [] => none
  | Except.error e :: _ => some (ListenErr.acceptFailed e)
  | Except.ok _ :: rest => acceptLoop rest

/-- `Listen`, with the network modelled by the bind outcome per address and
a trace of accept outcomes. -/
def Listen (addr : String) (bind : String → Except String Unit)
    (accepts : List (Except String Unit)) : Option ListenErr :=
  match bind (effectiveAddr addr) with
  | Except.error e => some (ListenErr.bindFailed e)
  | Except.ok _ => acceptLoop accepts

/-! ### Well-formedness predicates used to state the claims -/

/-- A three-character ASCII-digit status field, as matched by `[\d]{3}`. -/
def isThreeDigits (s : String) : Bool := s.data.length = 3 && s.data.all isDigitC

/-- Membership in the result-token language `\-?[[:alnum:]]*`, on lists. -/
def isResultTokenL (l : List Char) : Bool :=
  match l with
  | [] => true
  | c :: tl => if c = '-' then tl.all isAlnumC else (c :: tl).all isAlnumC

/-- Membership in the result-token language `\-?[[:alnum:]]*`. -/
def isResultToken (s : String) : Bool := isResultTokenL s.data

/-- A token that `strconv.Atoi` accepts syntactically: an optional minus sign
followed by at least one digit (the `+` sign cannot occur in a result token). -/
def syntacticInt (s : String) : Bool :=
  match s.data with
  | [] => false
  | c :: tl => if c = '-' then !tl.isEmpty && tl.all isDigitC else (c :: tl).all isDigitC

/-- A well-formed response line `DDD result=R (V)`. -/
def mkLine (ddd r v : String) : String := ddd ++ " result=" ++ r ++ " (" ++ v ++ ")"

/-- A response line `DDD result=R S` with an arbitrary trailing segment `S`
after the separating space. -/
def mkLineSeg (ddd r w : String) : String := ddd ++ " result=" ++ r ++ " " ++ w

/-! ### Generic list and string lemmas -/

theorem takeWhile_append_all {α : Type} (p : α → Bool) (l₁ l₂ : List α)
    (h : l₁.all p = true) : (l₁ ++ l₂).takeWhile p = l₁ ++ l₂.takeWhile p := by
  induction l₁ with
  | nil => simp
  | cons a l ih =>
    simp only [List.all_cons, Bool.and_eq_true] at h
    simp [List.takeWhile_cons, h.1, ih h.2]

theorem dropWhile_append_all {α : Type} (p : α → Bool) (l₁ l₂ : List α)
    (h : l₁.all p = true) : (l₁ ++ l₂).dropWhile p = l₂.dropWhile p := by
  induction l₁ with
  | nil => simp
  | cons a l ih =>
    simp only [List.all_cons, Bool.and_eq_true] at h
    simp [List.dropWhile_cons, h.1, ih h.2]

theorem isPrefixOf_append_self {α : Type} [BEq α] [LawfulBEq α] (p l : List α) :
    p.isPrefixOf (p ++ l) = true := by
  induction p with
  | nil => simp [List.isPrefixOf]
  | cons a as ih => simp [List.isPrefixOf, ih]

theorem data_append (s t : String) : (s ++ t).data = s.data ++ t.data := rfl

theorem data_result_lit : (" result=" : String).data = ' ' :: resultLit := rfl

theorem data_space_paren : (" (" : String).data = [' ', '('] := rfl

theorem data_close_paren : (")" : String).data = [')'] := rfl

theorem data_space : (" " : String).data = [' '] := rfl

theorem data_colon : (":" : String).data = [':'] := rfl

theorem string_mk_eq {s : String} {l : List Char} (h : s.data = l) : s = ⟨l⟩ :=
  String.ext h

/-! ### Character-class facts -/

theorem toNat_bounds_of_isDigitC {c : Char} (h : isDigitC c = true) :
    48 ≤ c.toNat ∧ c.toNat ≤ 57 := by
  simpa [isDigitC, Bool.and_eq_true, decide_eq_true_eq] using h

theorem reSpace_vals {c : Char} (h : reSpace c = true) :
    c.toNat = 32 ∨ c.toNat = 9 ∨ c.toNat = 10 ∨ c.toNat = 12 ∨ c.toNat = 13 := by
  have h0 := h
  simp only [reSpace, Bool.or_eq_true, decide_eq_true_eq] at h0
  tauto

theorem reSpace_not_alnum {c : Char} (h : reSpace c = true) : isAlnumC c = false := by
  rw [Bool.eq_false_iff]
  intro ha
  simp only [isAlnumC, isDigitC, Bool.or_eq_true, Bool.and_eq_true, decide_eq_true_eq] at ha
  rcases reSpace_vals h with h1 | h1 | h1 | h1 | h1 <;> omega

theorem reSpace_ne_minus {c : Char} (h : reSpace c = true) : ¬ c = '-' := by
  intro h0
  subst h0
  exact absurd h (by decide)

theorem isAlnumC_ne_minus {c : Char} (h : isAlnumC c = true) : ¬ c = '-' := by
  intro h0
  subst h0
  exact absurd h (by decide)

theorem isAlnumC_ne_plus {c : Char} (h : isAlnumC c = true) : ¬ c = '+' := by
  intro h0
  subst h0
  exact absurd h (by decide)

theorem beq_H_of_digit {c : Char} (h : isDigitC c = true) : ('H' == c) = false := by
  rw [beq_eq_false_iff_ne]
  intro h0
  subst h0
  exact absurd h (by decide)

theorem goStartsWith_digit_HANGUP {a : Char} (l : List Char) (h : isDigitC a = true) :
    goStartsWith ⟨a :: l⟩ "HANGUP" = false := by
  show (("HANGUP" : String).data.isPrefixOf (a :: l)) = false
  rw [show ("HANGUP" : String).data = 'H' :: ['A', 'N', 'G', 'U', 'P'] from rfl]
  simp [List.isPrefixOf, beq_H_of_digit h]

/-! ### Grammar lemmas: matching a line assembled from its parts -/

theorem tokenSplit_append (r rest : List Char) (hr : isResultTokenL r = true)
    (hrest : rest = [] ∨ ∃ c tl, rest = c :: tl ∧ reSpace c = true) :
    tokenSplit (r ++ rest) = (r, rest) := by
  have hstop : rest.takeWhile isAlnumC = [] ∧ rest.dropWhile isAlnumC = rest := by
    rcases hrest with h | ⟨c, tl, rfl, hc⟩
    · subst h
      exact ⟨rfl, rfl⟩
    · simp [List.takeWhile_cons, List.dropWhile_cons, reSpace_not_alnum hc]
  cases r with
  | nil =>
    rcases hrest with h | ⟨c, tl, rfl, hc⟩
    · subst h
      rfl
    · simp only [List.nil_append, tokenSplit, if_neg (reSpace_ne_minus hc)]
      simp [List.takeWhile_cons, List.dropWhile_cons, reSpace_not_alnum hc]
  | cons a tl =>
    by_cases ha : a = '-'
    · subst ha
      have htl : tl.all isAlnumC = true := by simpa [isResultTokenL] using hr
      simp only [List.cons_append, tokenSplit, if_pos rfl]
      rw [takeWhile_append_all _ _ _ htl, dropWhile_append_all _ _ _ htl, hstop.1, hstop.2]
      simp
    · have hall : (a :: tl).all isAlnumC = true := by
        simpa [isResultTokenL, ha] using hr
      simp only [List.cons_append, tokenSplit, if_neg ha]
      rw [← List.cons_append, takeWhile_append_all _ _ _ hall,
        dropWhile_append_all _ _ _ hall, hstop.1, hstop.2]
      simp

theorem matchAfter_parts (st r rest : List Char) (hr : isResultTokenL r = true)
    (hrest : rest = [] ∨ ∃ c tl, rest = c :: tl ∧ reSpace c = true ∧ hasNL tl = false) :
    matchAfter st (resultLit ++ (r ++ rest)) = some (st, r, rest) := by
  have hts : tokenSplit (r ++ rest) = (r, rest) := by
    refine tokenSplit_append r rest hr ?_
    rcases hrest with h | ⟨c, tl, h, hc, _⟩
    · exact Or.inl h
    · exact Or.inr ⟨c, tl, h, hc⟩
  have hdrop : (resultLit ++ (r ++ rest)).drop 7 = r ++ rest := by
    have : resultLit.length = 7 := rfl
    rw [← this, List.drop_left]
  simp only [matchAfter, isPrefixOf_append_self, if_pos, hdrop, matchToken, hts]
  rcases hrest with h | ⟨c, tl, rfl, hc, hnl⟩
  · subst h
    rfl
  · simp [matchTail, hc, hnl]

theorem responseMatchL_parts (a b c : Char) (r rest : List Char)
    (h1 : isDigitC a = true) (h2 : isDigitC b = true) (h3 : isDigitC c = true)
    (hr : isResultTokenL r = true)
    (hrest : rest = [] ∨ ∃ ch tl, rest = ch :: tl ∧ reSpace ch = true ∧ hasNL tl = false) :
    responseMatchL (a :: b :: c :: ' ' :: (resultLit ++ (r ++ rest))) =
      some ([a, b, c], r, rest) := by
  simp only [responseMatchL]
  rw [if_pos]
  · exact matchAfter_parts [a, b, c] r rest hr hrest
  · simp [h1, h2, h3]
    decide

/-! ### `goAtoi` lemmas -/

theorem goAtoi_threeDigits (s : String) (h : isThreeDigits s = true) :
    goAtoi s = ((digitsToNat s.data : Int), true) := by
  obtain ⟨l⟩ := s
  simp only [isThreeDigits, Bool.and_eq_true, decide_eq_true_eq] at h
  match l, h with
  | [a, b, c], h =>
    have ha : isDigitC a = true := by
      have := h.2
      simp only [List.all_cons, Bool.and_eq_true] at this
      exact this.1
    have hb : isDigitC b = true := by
      have := h.2
      simp only [List.all_cons, Bool.and_eq_true] at this
      exact this.2.1
    have hc : isDigitC c = true := by
      have := h.2
      simp only [List.all_cons, Bool.and_eq_true] at this
      exact this.2.2.1
    have hna := toNat_bounds_of_isDigitC ha
    have hnb := toNat_bounds_of_isDigitC hb
    have hnc := toNat_bounds_of_isDigitC hc
    have hsign : ¬ (a = '-' ∨ a = '+') := by
      rintro (h0 | h0) <;> subst h0 <;> exact absurd ha (by decide)
    have hval : digitsToNat [a, b, c] =
        10 * (10 * (a.toNat - 48) + (b.toNat - 48)) + (c.toNat - 48) := by
      simp [digitsToNat, List.foldl]
    have hbound : digitsToNat [a, b, c] ≤ 999 := by
      rw [hval]
      omega
    show goAtoi ⟨[a, b, c]⟩ = ((digitsToNat [a, b, c] : Int), true)
    simp only [goAtoi, if_neg hsign, parseDigits, h.2, ne_eq, List.cons_ne_nil,
      not_false_iff, and_true, if_pos, if_neg (fun h0 => hsign (Or.inl h0))]
    rw [if_neg, if_neg]
    · simp [int64Max]
      omega
    · simp [int64Min]
      omega

theorem goAtoi_nonnumeric (r : String) (hr : isResultToken r = true)
    (hni : syntacticInt r = false) : goAtoi r = (0, false) := by
  obtain ⟨l⟩ := r
  cases l with
  | nil => rfl
  | cons c tl =>
    by_cases hc : c = '-'
    · subst hc
      have hpd : parseDigits tl = none := by
        cases tl with
        | nil => rfl
        | cons x xs =>
          simp only [syntacticInt, if_true] at hni
          simp only [List.isEmpty_cons, Bool.not_false, Bool.true_and] at hni
          simp [parseDigits, hni]
      simp [goAtoi, hpd]
    · have hr0 : (c :: tl).all isAlnumC = true := by
        simpa [isResultToken, isResultTokenL, hc] using hr
      have hcal : isAlnumC c = true := by
        simp only [List.all_cons, Bool.and_eq_true] at hr0
        exact hr0.1
      have hni0 : (c :: tl).all isDigitC = false := by
        simpa [syntacticInt, hc] using hni
      have hsign : ¬ (c = '-' ∨ c = '+') := by
        rintro (h0 | h0)
        · exact hc h0
        · exact isAlnumC_ne_plus hcal h0
      simp only [goAtoi, if_neg hsign]
      have hpd : parseDigits (c :: tl) = none := by
        simp [parseDigits, hni0]
      rw [hpd]

/-! ### Value-extraction lemmas -/

theorem trimRightL_last (l : List Char) (c : Char) (h : goIsSpace c = false) :
    trimRightL (l ++ [c]) = l ++ [c] := by
  unfold trimRightL
  rw [List.reverse_append]
  simp [List.dropWhile_cons, h]

theorem goTrimSpace_paren (v : String) :
    goTrimSpace ⟨' ' :: '(' :: (v.data ++ [')'])⟩ = ⟨'(' :: (v.data ++ [')'])⟩ := by
  unfold goTrimSpace
  have h1 : trimLeftL (' ' :: '(' :: (v.data ++ [')'])) = '(' :: (v.data ++ [')']) := by
    unfold trimLeftL
    rw [List.dropWhile_cons, if_pos (show goIsSpace ' ' = true from rfl),
      List.dropWhile_cons, if_neg (by decide)]
  rw [h1, show ('(' :: (v.data ++ [')'])) = ('(' :: v.data) ++ [')'] by simp,
    trimRightL_last _ _ (by decide)]

theorem extract_paren_value (v : String) :
    goTrimSuffix (goTrimPre (goTrimSpace ⟨' ' :: '(' :: (v.data ++ [')'])⟩) "(") ")" = v := by
  rw [goTrimSpace_paren]
  have h2 : goTrimPre ⟨'(' :: (v.data ++ [')'])⟩ "(" = ⟨v.data ++ [')']⟩ := by
    unfold goTrimPre
    rw [if_pos]
    · rfl
    · show (("(" : String).data.isPrefixOf ('(' :: (v.data ++ [')']))) = true
      simp [List.isPrefixOf, show ("(" : String).data = ['('] from rfl]
  rw [h2]
  unfold goTrimSuffix
  rw [if_pos]
  · show (⟨(v.data ++ [')']).take ((v.data ++ [')']).length - (")" : String).data.length)⟩ : String) = v
    have h3 : (v.data ++ [')']).length - (")" : String).data.length = v.data.length := by
      simp [show (")" : String).data = [')'] from rfl]
    rw [h3, List.take_left]
  · show ((")" : String).data.isSuffixOf (v.data ++ [')'])) = true
    simp [List.isSuffixOf, List.isPrefixOf, show (")" : String).data = [')'] from rfl,
      List.reverse_append]

theorem goTrimSpace_space_cons (w : String) :
    goTrimSpace ⟨' ' :: w.data⟩ = goTrimSpace w := by
  unfold goTrimSpace
  congr 1

theorem finalize_value (r : Response) : (finalize r).value = r.value := by
  unfold finalize
  split <;> rfl

theorem finalize_of_eq (r : Response) (h : r.status = 200) : finalize r = r := by
  unfold finalize
  rw [if_neg (not_not_intro h)]

theorem finalize_of_ne (r : Response) (h : ¬ r.status = 200) :
    finalize r = { r with error := some CmdError.non200 } := by
  unfold finalize
  rw [if_pos h]

/-! ### The master lemma: `commandRead` on a line assembled from its parts -/

theorem commandRead_parts (ddd r : String) (tail : List Char)
    (hd : isThreeDigits ddd = true) (hr : isResultToken r = true)
    (ht : tail = [] ∨ ∃ c tl, tail = c :: tl ∧ reSpace c = true ∧ hasNL tl = false) :
    commandRead [⟨ddd.data ++ (' ' :: (resultLit ++ (r.data ++ tail)))⟩] =
      finalize
        { error := if (goAtoi r).2 then none else some CmdError.resultParseFailed,
          status := (digitsToNat ddd.data : Int),
          result := (goAtoi r).1,
          resultString := r,
          value := goTrimSuffix (goTrimPre (goTrimSpace ⟨tail⟩) "(") ")" } := by
  obtain ⟨a, b, c, hddd, ha, hb, hc⟩ :
      ∃ a b c, ddd.data = [a, b, c] ∧ isDigitC a = true ∧ isDigitC b = true ∧
        isDigitC c = true := by
    have h0 := hd
    simp only [isThreeDigits, Bool.and_eq_true, decide_eq_true_eq] at h0
    match hdd : ddd.data, h0 with
    | [a, b, c], h0 =>
      refine ⟨a, b, c, rfl, ?_, ?_, ?_⟩ <;>
      · have h1 := h0.2
        simp only [List.all_cons, Bool.and_eq_true] at h1
        tauto
  rw [hddd]
  have hL : ([a, b, c] ++ (' ' :: (resultLit ++ (r.data ++ tail)))) =
      a :: b :: c :: ' ' :: (resultLit ++ (r.data ++ tail)) := by simp
  rw [hL]
  have hne : ¬ ((⟨a :: b :: c :: ' ' :: (resultLit ++ (r.data ++ tail))⟩ : String) = "") := by
    intro h0
    have h1 := congrArg String.data h0
    simp at h1
  have hhang :
      goStartsWith ⟨a :: b :: c :: ' ' :: (resultLit ++ (r.data ++ tail))⟩ "HANGUP" = false :=
    goStartsWith_digit_HANGUP _ ha
  have hm : responseMatch ⟨a :: b :: c :: ' ' :: (resultLit ++ (r.data ++ tail))⟩ =
      some (⟨[a, b, c]⟩, r, ⟨tail⟩) := by
    show (match responseMatchL (a :: b :: c :: ' ' :: (resultLit ++ (r.data ++ tail))) with
      | none => none
      | some (p1, p2, p3) => some ((⟨p1⟩ : String), (⟨p2⟩ : String), (⟨p3⟩ : String))) =
        some (⟨[a, b, c]⟩, r, ⟨tail⟩)
    rw [responseMatchL_parts a b c r.data tail ha hb hc hr ht]
  have hga : goAtoi ⟨[a, b, c]⟩ = ((digitsToNat [a, b, c] : Int), true) :=
    goAtoi_threeDigits ⟨[a, b, c]⟩ (by simp [isThreeDigits, ha, hb, hc])
  simp only [commandRead, if_neg hne, hhang, Bool.false_eq_true, if_false, hm, hga]
  exact if_neg (by decide)

/-! ### Line-assembly lemmas for the stated claims -/

theorem mkLine_data (ddd r v : String) :
    (mkLine ddd r v).data =
      ddd.data ++ (' ' :: (resultLit ++ (r.data ++ (' ' :: '(' :: (v.data ++ [')'])))))
      := by
  simp [mkLine, data_append, data_result_lit, data_space_paren, data_close_paren, resultLit]

theorem mkLineSeg_data (ddd r w : String) :
    (mkLineSeg ddd r w).data = ddd.data ++ (' ' :: (resultLit ++ (r.data ++ (' ' :: w.data))))
    := by
  simp [mkLineSeg, data_append, data_result_lit, data_space, resultLit]

theorem paren_tail_ok (v : String) (hv : hasNL v.data = false) :
    (' ' :: '(' :: (v.data ++ [')'])) = [] ∨ ∃ c tl,
      (' ' :: '(' :: (v.data ++ [')'])) = c :: tl ∧ reSpace c = true ∧ hasNL tl = false := by
  refine Or.inr ⟨' ', '(' :: (v.data ++ [')']), rfl, by decide, ?_⟩
  unfold hasNL at hv ⊢
  simp only [List.any_cons, List.any_append, hv]
  decide

/-! ### The claims about `Command` on well-formed lines -/

/-- C1: for every input line of the form `DDD result=R (V)` with `DDD = 200`
and a result token `R` that parses as an integer, the `Command` exchange
produces a `Response` with status 200, result text `R`, value `V`, and no
error. -/
theorem wellformed_200_response (ddd r v : String)
    (hd : isThreeDigits ddd = true) (hr : isResultToken r = true)
    (hv : hasNL v.data = false) (h200 : ddd = "200") (hnum : (goAtoi r).2 = true) :
    Command (Except.ok ()) [mkLine ddd r v] =
      { error := none, status := 200, result := (goAtoi r).1, resultString := r,
        value := v } := by
  have hline := string_mk_eq (mkLine_data ddd r v)
  have hst : ((digitsToNat ddd.data : Nat) : Int) = 200 := by
    rw [h200]
    decide
  show commandRead [mkLine ddd r v] = _
  rw [hline, commandRead_parts ddd r _ hd hr (paren_tail_ok v hv), extract_paren_value v]
  rw [finalize_of_eq _ (by
    show ((digitsToNat ddd.data : Nat) : Int) = 200
    exact hst)]
  rw [hst]
  simp [hnum]

/-- C5: for every response line matching the grammar whose three-digit status
is not 200, the `Command` call returns the generic non-200 status error while
status, result text, and value remain populated. -/
theorem non200_reports_status_error (ddd r v : String)
    (hd : isThreeDigits ddd = true) (hr : isResultToken r = true)
    (hv : hasNL v.data = false) (hne : digitsToNat ddd.data ≠ 200) :
    Command (Except.ok ()) [mkLine ddd r v] =
      { error := some CmdError.non200, status := (digitsToNat ddd.data : Int),
        result := (goAtoi r).1, resultString := r, value := v } := by
  have hline := string_mk_eq (mkLine_data ddd r v)
  show commandRead [mkLine ddd r v] = _
  rw [hline, commandRead_parts ddd r _ hd hr (paren_tail_ok v hv), extract_paren_value v]
  rw [finalize_of_ne _ (by
    show ¬ ((digitsToNat ddd.data : Nat) : Int) = 200
    exact_mod_cast hne)]

/-- C2 counterexample: the line `200 result=0 abc` has a trailing segment that
is not parenthesized, yet the resulting `Value` is `abc`, not the empty
string. -/
theorem unparenthesized_value_not_empty :
    (Command (Except.ok ()) ["200 result=0 abc"]).value = "abc" ∧
    ("abc" : String) ≠ "" := by
  constructor
  · decide
  · decide

/-- C2 amended: the value is obtained from the trailing segment by trimming
surrounding whitespace and then independently removing at most one leading
`(` and at most one trailing `)`; a fully parenthesized segment yields the
enclosed text, but an unparenthesized segment yields itself rather than the
empty string. -/
theorem trailing_segment_value (ddd r w v : String)
    (hd : isThreeDigits ddd = true) (hr : isResultToken r = true)
    (hw : hasNL w.data = false) (hv : hasNL v.data = false) :
    (Command (Except.ok ()) [mkLineSeg ddd r w]).value =
      goTrimSuffix (goTrimPre (goTrimSpace w) "(") ")"
    ∧ (Command (Except.ok ()) [mkLine ddd r v]).value = v := by
  constructor
  · have hline := string_mk_eq (mkLineSeg_data ddd r w)
    have htail : (' ' :: w.data) = [] ∨ ∃ c tl, (' ' :: w.data) = c :: tl ∧
        reSpace c = true ∧ hasNL tl = false :=
      Or.inr ⟨' ', w.data, rfl, by decide, hw⟩
    show (commandRead [mkLineSeg ddd r w]).value = _
    rw [hline, commandRead_parts ddd r _ hd hr htail, finalize_value]
    show goTrimSuffix (goTrimPre (goTrimSpace ⟨' ' :: w.data⟩) "(") ")" = _
    rw [goTrimSpace_space_cons]
  · have hline := string_mk_eq (mkLine_data ddd r v)
    show (commandRead [mkLine ddd r v]).value = v
    rw [hline, commandRead_parts ddd r _ hd hr (paren_tail_ok v hv), finalize_value]
    show goTrimSuffix (goTrimPre (goTrimSpace ⟨' ' :: '(' :: (v.data ++ [')'])⟩) "(") ")" = v
    exact extract_paren_value v

/-- C4 counterexample: on the line `200 result= (v)` the result token is
empty, and the `Command` call does fail with the integer-parse error on its
`Response` even though the remaining fields are populated. -/
theorem empty_result_token_sets_error :
    (Command (Except.ok ()) ["200 result= (v)"]).error = some CmdError.resultParseFailed ∧
    (Command (Except.ok ()) ["200 result= (v)"]).value = "v" ∧
    (Command (Except.ok ()) ["200 result= (v)"]).resultString = "" := by
  refine ⟨by decide, by decide, by decide⟩

/-- C4 amended: a grammatical line whose result token is not syntactically an
integer still populates status, result text and value, and leaves the numeric
result at its zero default; but the `Response` carries the integer-parse
error when the status is 200 (for any other status it is replaced by the
generic non-200 error). -/
theorem nonnumeric_result_tolerated (ddd r v : String)
    (hd : isThreeDigits ddd = true) (hr : isResultToken r = true)
    (hv : hasNL v.data = false) (hni : syntacticInt r = false) :
    Command (Except.ok ()) [mkLine ddd r v] =
      { error := some (if digitsToNat ddd.data = 200 then CmdError.resultParseFailed
          else CmdError.non200),
        status := (digitsToNat ddd.data : Int), result := 0, resultString := r,
        value := v } := by
  have hline := string_mk_eq (mkLine_data ddd r v)
  have hga := goAtoi_nonnumeric r hr hni
  show commandRead [mkLine ddd r v] = _
  rw [hline, commandRead_parts ddd r _ hd hr (paren_tail_ok v hv), extract_paren_value v]
  simp only [hga, Bool.false_eq_true, if_false]
  by_cases h2 : digitsToNat ddd.data = 200
  · rw [if_pos h2]
    rw [finalize_of_eq _ (by
      show ((digitsToNat ddd.data : Nat) : Int) = 200
      exact_mod_cast h2)]
  · rw [if_neg h2]
    rw [finalize_of_ne _ (by
      show ¬ ((digitsToNat ddd.data : Nat) : Int) = 200
      exact_mod_cast h2)]

/-! ### Hangup detection and parse failure -/

theorem commandRead_error_ne_hangup (raw : String) (rest : List String)
    (h : raw ≠ "") (hb : goStartsWith raw "HANGUP" = false) :
    ¬ ((commandRead (raw :: rest)).error = some CmdError.hangup) := by
  rcases hm : responseMatch raw with _ | ⟨p1, p2, p3⟩
  · simp [commandRead, h, hb, hm]
  · simp only [commandRead, if_neg h, hb, Bool.false_eq_true, if_false, hm]
    split
    · simp
    · unfold finalize
      split <;> (try split) <;> simp

/-- C3 counterexample: the line `HANGUPx` is not literally `HANGUP`, yet the
`Command` exchange treats it as the hangup outcome. -/
theorem hangup_literal_counterexample :
    (Command (Except.ok ()) ["HANGUPx"]).error = some CmdError.hangup ∧
    ("HANGUPx" : String) ≠ "HANGUP" := by
  refine ⟨by decide, by decide⟩

/-- C3 amended: a non-empty received line yields the hangup outcome exactly
when it starts with the prefix `HANGUP` (so the literal line `HANGUP` does,
but so does any longer line extending it); such a line bypasses the response
grammar and produces the zero response carrying only the hangup error. -/
theorem hangup_prefix_detection (raw : String) (rest : List String) (h : raw ≠ "") :
    ((Command (Except.ok ()) (raw :: rest)).error = some CmdError.hangup ↔
      goStartsWith raw "HANGUP" = true)
    ∧ Command (Except.ok ()) ("HANGUP" :: rest) =
        { Response.empty with error := some CmdError.hangup } := by
  constructor
  · constructor
    · intro he
      by_contra hnp
      have hb : goStartsWith raw "HANGUP" = false := by
        cases hgs : goStartsWith raw "HANGUP"
        · rfl
        · exact absurd hgs hnp
      exact commandRead_error_ne_hangup raw rest h hb he
    · intro hp
      show (commandRead (raw :: rest)).error = _
      simp [commandRead, h, hp]
  · rfl

/-- C6 counterexample: the line `HANGUPx` is non-empty, differs from
`HANGUP`, and does not match the response grammar, yet the `Command` call
reports the hangup outcome rather than a protocol-parse error. -/
theorem unmatched_prefix_line_counterexample :
    Command (Except.ok ()) ["HANGUPx"] =
      { Response.empty with error := some CmdError.hangup }
    ∧ responseMatch "HANGUPx" = none
    ∧ ("HANGUPx" : String) ≠ ""
    ∧ ("HANGUPx" : String) ≠ "HANGUP" := by
  refine ⟨by decide, by decide, by decide, by decide⟩

/-- C6 amended: every non-empty line that does not start with the `HANGUP`
prefix and does not match the grammar makes the `Command` call fail with the
protocol-parse error carrying the raw line, all other fields remaining at
their zero values. -/
theorem unmatched_line_parse_error (raw : String) (rest : List String)
    (h1 : raw ≠ "") (h2 : goStartsWith raw "HANGUP" = false)
    (h3 : responseMatch raw = none) :
    Command (Except.ok ()) (raw :: rest) =
      { Response.empty with error := some (CmdError.parseFailed raw) } := by
  show commandRead (raw :: rest) = _
  simp [commandRead, h1, h2, h3]

/-! ### The preamble reader -/

theorem string_eta (s : String) : (⟨s.data⟩ : String) = s := rfl

theorem all_bne_of_not_mem {l : List Char} {x : Char} (h : ¬ x ∈ l) :
    l.all (fun c => c != x) = true := by
  rw [List.all_eq_true]
  intro c hc
  exact bne_iff_ne.mpr (fun he => h (he ▸ hc))

theorem goSplitN2_first_colon (a b : String) (h : ¬ ':' ∈ a.data) :
    goSplitN2 (a ++ ":" ++ b) ':' = [a, b] := by
  have hall := all_bne_of_not_mem h
  have hdata : (a ++ ":" ++ b).data = a.data ++ ':' :: b.data := by
    simp [data_append, data_colon]
  have hdw : (a ++ ":" ++ b).data.dropWhile (fun c => c != ':') = ':' :: b.data := by
    rw [hdata, dropWhile_append_all _ _ _ hall, List.dropWhile_cons, if_neg (by decide)]
  have htw : (a ++ ":" ++ b).data.takeWhile (fun c => c != ':') = a.data := by
    rw [hdata, takeWhile_append_all _ _ _ hall, List.takeWhile_cons, if_neg (by decide)]
    simp
  simp only [goSplitN2, hdw, htw, string_eta]

theorem goSplitN2_no_colon (s : String) (h : ¬ ':' ∈ s.data) :
    goSplitN2 s ':' = [s] := by
  have hall := all_bne_of_not_mem h
  have hdw : s.data.dropWhile (fun c => c != ':') = [] := by
    have h0 := dropWhile_append_all (fun c => c != ':') s.data [] hall
    simpa using h0
  have htw : s.data.takeWhile (fun c => c != ':') = s.data := by
    have h0 := takeWhile_append_all (fun c => c != ':') s.data [] hall
    simpa using h0
  simp only [goSplitN2, hdw, htw, string_eta]

theorem readPreamble_stop (pre : List String) :
    ∀ (post : List String) (vars : VarMap), ¬ "" ∈ pre →
      readPreamble (pre ++ "" :: post) vars = readPreamble pre vars := by
  induction pre with
  | nil =>
    intro post vars h
    rfl
  | cons l pre ih =>
    intro post vars h
    have hl : ¬ l = "" := fun h0 => h (by simp [h0])
    simp only [List.cons_append, readPreamble, if_neg hl]
    exact ih post _ (fun hm => h (List.mem_cons_of_mem _ hm))

/-- C7: the preamble reader consumes lines up to the first empty line or
end-of-stream; a non-empty line is split at its first colon into a key and a
value (later colons stay inside the value), both whitespace-trimmed before
storing; a line without a colon contributes nothing; the terminating empty
line is consumed but not stored and everything after it is ignored;
end-of-stream before a terminator simply returns whatever was parsed, which
becomes the `Variables` map. -/
theorem preamble_reader_contract :
    (∀ pre post vars, ¬ "" ∈ pre →
      readPreamble (pre ++ "" :: post) vars = readPreamble pre vars)
    ∧ (∀ a b rest vars, ¬ ':' ∈ a.data →
      readPreamble ((a ++ ":" ++ b) :: rest) vars =
        readPreamble rest (mapSet vars (goTrimSpace a) (goTrimSpace b)))
    ∧ (∀ line rest vars, line ≠ "" → ¬ ':' ∈ line.data →
      readPreamble (line :: rest) vars = readPreamble rest vars)
    ∧ (∀ vars, readPreamble [] vars = vars)
    ∧ (∀ input, NewWithEAGI input = readPreamble input emptyVars) := by
  refine ⟨readPreamble_stop, ?_, ?_, fun _ => rfl, fun _ => rfl⟩
  · intro a b rest vars h
    have hne : ¬ (a ++ ":" ++ b) = "" := by
      intro h0
      have h1 := congrArg String.data h0
      rw [show (a ++ ":" ++ b).data = a.data ++ ':' :: b.data by
        simp [data_append, data_colon]] at h1
      simp at h1
    simp only [readPreamble, if_neg hne, preambleStep, goSplitN2_first_colon a b h]
  · intro line rest vars h1 h2
    simp only [readPreamble, if_neg h1, preambleStep, goSplitN2_no_colon line h2]

/-! ### The `Listen` dispatcher -/

theorem acceptLoop_first_error (pre post : List (Except String Unit)) (e : String)
    (h : ∀ x ∈ pre, x = Except.ok ()) :
    acceptLoop (pre ++ Except.error e :: post) = some (ListenErr.acceptFailed e) := by
  induction pre with
  | nil => rfl
  | cons x pre ih =>
    have hx : x = Except.ok () := h x (by simp)
    subst hx
    simp only [List.cons_append, acceptLoop]
    exact ih (fun y hy => h y (by simp [hy]))

theorem acceptLoop_none_iff (acc : List (Except String Unit)) :
    acceptLoop acc = none ↔ ∀ x ∈ acc, x = Except.ok () := by
  induction acc with
  | nil => simp [acceptLoop]
  | cons x rest ih =>
    cases x with
    | ok u =>
      cases u
      simp [acceptLoop, ih]
    | error e => simp [acceptLoop]

/-- C9: `Listen` with an empty address binds the default `localhost:4573`; a
bind failure is returned directly to the caller; the first accept failure
terminates the loop and is returned as the fatal error; and `Listen` only
ever returns an error — while every bind and accept succeeds it has not
returned at all. -/
theorem listen_contract :
    effectiveAddr "" = "localhost:4573"
    ∧ (∀ addr bind acc e, bind (effectiveAddr addr) = Except.error e →
      Listen addr bind acc = some (ListenErr.bindFailed e))
    ∧ (∀ addr bind e pre post, bind (effectiveAddr addr) = Except.ok () →
      (∀ x ∈ pre, x = Except.ok ()) →
      Listen addr bind (pre ++ Except.error e :: post) =
        some (ListenErr.acceptFailed e))
    ∧ (∀ addr bind acc, Listen addr bind acc = none ↔
      (bind (effectiveAddr addr) = Except.ok () ∧ ∀ x ∈ acc, x = Except.ok ())) := by
  refine ⟨rfl, ?_, ?_, ?_⟩
  · intro addr bind acc e hb
    simp [Listen, hb]
  · intro addr bind e pre post hb hok
    simp [Listen, hb, acceptLoop_first_error pre post e hok]
  · intro addr bind acc
    rcases hb : bind (effectiveAddr addr) with e | u
    · simp [Listen, hb]
    · cases u
      simp [Listen, hb, acceptLoop_none_iff]

/-- C10: when the write phase succeeds but the input stream yields
end-of-stream or an empty line before any response line, the `Command` call
returns the zero response carrying the generic non-200 status error — not a
transport error and not a protocol-parse error. -/
theorem empty_input_semantic_error (rest : List String) :
    Command (Except.ok ()) [] = { Response.empty with error := some CmdError.non200 }
    ∧ Command (Except.ok ()) ("" :: rest) =
      { Response.empty with error := some CmdError.non200 } :=
  ⟨rfl, rfl⟩

/-! ### Witnesses: the universally quantified theorems evaluated at concrete
inputs, with every hypothesis discharged. -/

theorem wellformed_200_response_witness :
    isThreeDigits "200" = true ∧ isResultToken "0" = true
    ∧ hasNL ("timeout" : String).data = false ∧ (goAtoi "0").2 = true
    ∧ Command (Except.ok ()) [mkLine "200" "0" "timeout"] =
      { error := none, status := 200, result := (goAtoi "0").1, resultString := "0",
        value := "timeout" } :=
  ⟨by decide, by decide, by decide, by decide,
    wellformed_200_response "200" "0" "timeout" (by decide) (by decide) (by decide) rfl
      (by decide)⟩

theorem non200_reports_status_error_witness :
    isThreeDigits "510" = true ∧ isResultToken "5" = true
    ∧ hasNL ("invalid" : String).data = false
    ∧ digitsToNat ("510" : String).data ≠ 200
    ∧ Command (Except.ok ()) [mkLine "510" "5" "invalid"] =
      { error := some CmdError.non200, status := (digitsToNat ("510" : String).data : Int),
        result := (goAtoi "5").1, resultString := "5", value := "invalid" } :=
  ⟨by decide, by decide, by decide, by decide,
    non200_reports_status_error "510" "5" "invalid" (by decide) (by decide) (by decide)
      (by decide)⟩

theorem trailing_segment_value_witness :
    isThreeDigits "200" = true ∧ isResultToken "0" = true
    ∧ hasNL ("abc" : String).data = false ∧ hasNL ("val" : String).data = false
    ∧ ((Command (Except.ok ()) [mkLineSeg "200" "0" "abc"]).value =
        goTrimSuffix (goTrimPre (goTrimSpace "abc") "(") ")"
      ∧ (Command (Except.ok ()) [mkLine "200" "0" "val"]).value = "val") :=
  ⟨by decide, by decide, by decide, by decide,
    trailing_segment_value "200" "0" "abc" "val" (by decide) (by decide) (by decide)
      (by decide)⟩

theorem nonnumeric_result_tolerated_witness :
    isThreeDigits "200" = true ∧ isResultToken "" = true
    ∧ hasNL ("timeout" : String).data = false ∧ syntacticInt "" = false
    ∧ Command (Except.ok ()) [mkLine "200" "" "timeout"] =
      { error := some (if digitsToNat ("200" : String).data = 200 then
          CmdError.resultParseFailed else CmdError.non200),
        status := (digitsToNat ("200" : String).data : Int), result := 0,
        resultString := "", value := "timeout" } :=
  ⟨by decide, by decide, by decide, by decide,
    nonnumeric_result_tolerated "200" "" "timeout" (by decide) (by decide) (by decide)
      (by decide)⟩

theorem hangup_prefix_detection_witness :
    ("HANGUP" : String) ≠ ""
    ∧ (((Command (Except.ok ()) ["HANGUP"]).error = some CmdError.hangup ↔
        goStartsWith "HANGUP" "HANGUP" = true)
      ∧ Command (Except.ok ()) ["HANGUP"] =
        { Response.empty with error := some CmdError.hangup }) :=
  ⟨by decide, hangup_prefix_detection "HANGUP" [] (by decide)⟩

theorem unmatched_line_parse_error_witness :
    ("not a response" : String) ≠ ""
    ∧ goStartsWith "not a response" "HANGUP" = false
    ∧ responseMatch "not a response" = none
    ∧ Command (Except.ok ()) ["not a response"] =
      { Response.empty with error := some (CmdError.parseFailed "not a response") } :=
  ⟨by decide, by decide, by decide,
    unmatched_line_parse_error "not a response" [] (by decide) (by decide) (by decide)⟩

theorem preamble_reader_contract_witness :
    (¬ "" ∈ (["agi_request: foo.agi"] : List String)
      ∧ readPreamble (["agi_request: foo.agi"] ++ "" :: ["junk"]) emptyVars =
          readPreamble ["agi_request: foo.agi"] emptyVars)
    ∧ (¬ ':' ∈ ("agi_request" : String).data
      ∧ readPreamble [("agi_request" : String) ++ ":" ++ " foo.agi:8"] emptyVars =
          readPreamble []
            (mapSet emptyVars (goTrimSpace "agi_request") (goTrimSpace " foo.agi:8")))
    ∧ (("plainline" : String) ≠ "" ∧ ¬ ':' ∈ ("plainline" : String).data
      ∧ readPreamble ["plainline"] emptyVars = readPreamble [] emptyVars)
    ∧ readPreamble [] emptyVars = emptyVars
    ∧ NewWithEAGI ["x: y"] = readPreamble ["x: y"] emptyVars :=
  ⟨⟨by decide,
      preamble_reader_contract.1 ["agi_request: foo.agi"] ["junk"] emptyVars (by decide)⟩,
    ⟨by decide,
      preamble_reader_contract.2.1 "agi_request" " foo.agi:8" [] emptyVars (by decide)⟩,
    ⟨by decide, by decide,
      preamble_reader_contract.2.2.1 "plainline" [] emptyVars (by decide) (by decide)⟩,
    preamble_reader_contract.2.2.2.1 emptyVars,
    preamble_reader_contract.2.2.2.2 ["x: y"]⟩

theorem listen_contract_witness :
    effectiveAddr "" = "localhost:4573"
    ∧ ((fun _ => Except.error "bindfail" : String → Except String Unit) (effectiveAddr "") =
        Except.error "bindfail"
      ∧ Listen "" (fun _ => Except.error "bindfail") [] =
          some (ListenErr.bindFailed "bindfail"))
    ∧ ((fun _ => Except.ok () : String → Except String Unit) (effectiveAddr "") = Except.ok ()
      ∧ (∀ x ∈ ([Except.ok ()] : List (Except String Unit)), x = Except.ok ())
      ∧ Listen "" (fun _ => Except.ok ()) ([Except.ok ()] ++ Except.error "acceptfail" :: []) =
          some (ListenErr.acceptFailed "acceptfail"))
    ∧ (Listen "" (fun _ => Except.ok ()) [Except.ok ()] = none ↔
        ((fun _ => Except.ok () : String → Except String Unit) (effectiveAddr "") = Except.ok ()
          ∧ ∀ x ∈ ([Except.ok ()] : List (Except String Unit)), x = Except.ok ())) :=
  ⟨listen_contract.1,
    ⟨rfl, listen_contract.2.1 "" (fun _ => Except.error "bindfail") [] "bindfail" rfl⟩,
    ⟨rfl, fun _ hx => List.mem_singleton.mp hx,
      listen_contract.2.2.1 "" (fun _ => Except.ok ()) "acceptfail" [Except.ok ()] [] rfl
        (fun _ hx => List.mem_singleton.mp hx)⟩,
    listen_contract.2.2.2 "" (fun _ => Except.ok ()) [Except.ok ()]⟩

end AGI
